import Mathlib

/-!
# Verification of the function-endpoint resolution subsystem

A shallow embedding of the `FuncManager` component of
serverless-stable-diffusion-api (pkg/module, file containing
`FuncManager.GetEndpoint`), together with the configuration helpers it uses
(pkg/config) and — modelled from the spec, since the `concurrency` package is
not among the provided source files — the cold-start admission controller.

Conventions of the embedding:
* Go maps used as keyed collections (`f.endpoints`, the datastore) become
  association lists over `String`; `insertA`/`lookupA` mirror Go map
  assignment and lookup.
* The remote provisioning backend (two client generations) is an oracle: each
  provisioning attempt consumes one `BackendResp` describing how the remote
  calls of that attempt answer.  `utils.Hash` (pkg/utils, external to the
  analysed files) is an abstract parameter `hash : String → String`.
* Go functions that can panic are embedded as `Option`-valued: `none` marks a
  run that panics (nil-pointer dereference), `some` a run that returns.
* Instrumentation fields (`provisionCalls`, `sleptMs`, the list of keys an
  operation called) record the externally observable calls an operation makes;
  they are not part of the Go return values.
* Timestamp columns written to the store (`utils.TimestampS`, an external
  clock) are omitted: no analysed control flow reads them.
-/

namespace SdApi

/-- `config.FlexMode` (pkg/config): `SingleFunc | MultiFunc`. -/
inductive FlexMode where
  | SingleFunc
  | MultiFunc
deriving Repr, DecidableEq

/-- The fields of `config.Config` (pkg/config) read by the analysed code:
`ServiceName` (selects the fc2/fc3 client generation), `ServerName` (the
reference function for fc3 creation) and `FlexMode` (the raw yaml string). -/
structure Config where
  serviceName : String
  serverName : String
  flexMode : String
deriving Repr, DecidableEq

/-- `Config.GetFlexMode` (pkg/config): `SingleFunc` iff the configured string
is exactly "singleFunc", otherwise `MultiFunc`. -/
def Config.GetFlexMode (c : Config) : FlexMode :=
  if c.flexMode = "singleFunc" then FlexMode.SingleFunc else FlexMode.MultiFunc

/-- `isFc3` (pkg/module): the fc3.0 generation is used iff no service name is
configured. -/
def isFc3 (c : Config) : Bool := c.serviceName = ""

/-- `RETRY_INTERVALMS` (pkg/module): the fixed 10ms sleep between GetEndpoint
attempts, in milliseconds. -/
def RETRY_INTERVALMS : Nat := 10

/-- Association-list lookup, mirroring Go map indexing `m[k]` (first match). -/
def lookupA {α : Type} : List (String × α) → String → Option α
  | [], _ => none
  | (k, v) :: rest, key => if k = key then some v else lookupA rest key

/-- Association-list overwrite, mirroring Go map assignment `m[k] = v`. -/
def insertA {α : Type} (key : String) (val : α) : List (String × α) → List (String × α)
  | [] => [(key, val)]
  | (k, v) :: rest => if k = key then (key, val) :: rest else (k, v) :: insertA key val rest

/-- The columns of a persisted function row that the analysed code reads or
writes (`KModelServiceSdModel`, `KModelServiceFunctionName`,
`KModelServiceEndPoint`); the row key is the association-list key.  The
timestamp columns are omitted (external clock). -/
structure StoreRow where
  sdModel : String
  functionName : String
  endpoint : String
deriving Repr, DecidableEq

/-- The mutable state of a `FuncManager` (pkg/module) together with the
persistent store it is wired to: `endpoints` is the in-memory cache
(`map[string][]string`, value = [endpoint, sdModel]), `store` the rows of the
`funcStore` datastore, `lastInvokeEndpoint` the most recently used endpoint. -/
structure MgrState where
  endpoints : List (String × List String)
  store : List (String × StoreRow)
  lastInvokeEndpoint : String
deriving Repr, DecidableEq

/-- The state of a freshly initialised manager over an empty store
(`InitFuncManager` with `loadFunc` finding no rows). -/
def initState : MgrState := { endpoints := [], store := [], lastInvokeEndpoint := "" }

/-- `GetFunctionName` (pkg/module): fixed prefix "sd_" concatenated with the
hash of the key.  `utils.Hash` is external to the analysed files and is an
abstract parameter. -/
def GetFunctionName (hash : String → String) (key : String) : String :=
  "sd_" ++ hash key

/-- How the remote provisioning backend answers one `createFunc` attempt:
whether the fc3 reference function (`GetFcFunc(config.ServerName)`) is
readable, the error of the CreateFunction call (none = success), and the
CreateTrigger outcome (error, or the `UrlInternet` string of the created
trigger). -/
structure BackendResp where
  refFuncReadable : Bool
  createFunctionErr : Option String
  createTriggerResp : Except String String
deriving Repr

/-- `FuncManager.createFc3Function` composed with `getCreateFuncRequestFc3`
(pkg/module): if the reference function cannot be read the request is nil and
the attempt fails with the configuration error; otherwise CreateFunction then
CreateTrigger run, each error aborting; on success the trigger's UrlInternet
is the endpoint. -/
def createFc3Function (b : BackendResp) : String × Option String :=
  if ¬ b.refFuncReadable then ("", some "get createFunctionRequest error")
  else
    match b.createFunctionErr with
    | some e => ("", some e)
    | none =>
      match b.createTriggerResp with
      | Except.error e => ("", some e)
      | Except.ok url => (url, none)

/-- `FuncManager.createFCFunction` (pkg/module, fc2.0): CreateFunction then
CreateTrigger, each error aborting; on success the trigger's UrlInternet is
the endpoint. -/
def createFCFunction (b : BackendResp) : String × Option String :=
  match b.createFunctionErr with
  | some e => ("", some e)
  | none =>
    match b.createTriggerResp with
    | Except.error e => ("", some e)
    | Except.ok url => (url, none)

/-- The `(endpoint, err)` pair produced inside `createFunc` by the generation
branch on `isFc3` (pkg/module). -/
def createResult (cfg : Config) (b : BackendResp) : String × Option String :=
  if isFc3 cfg then createFc3Function b else createFCFunction b

/-- `FuncManager.putFunc` (pkg/module): writes the binding row into the
persistent store under `key` (timestamp columns omitted). -/
def putFunc (st : MgrState) (key functionName sdModel endpoint : String) : MgrState :=
  let row : StoreRow := { sdModel := sdModel, functionName := functionName, endpoint := endpoint }
  { st with store := insertA key row st.store }

/-- `FuncManager.createFunc` (pkg/module).  On `err == nil && endpoint != ""`
it caches `[endpoint, sdModel]`, persists the row via `putFunc` and returns
the endpoint; on a backend error it logs and returns "".  When `err == nil`
but the endpoint is empty the Go else-branch evaluates `err.Error()` on a nil
error — a nil-pointer dereference; that run is embedded as `none`. -/
def createFunc (hash : String → String) (cfg : Config) (st : MgrState)
    (key sdModel : String) (b : BackendResp) : Option (MgrState × String) :=
  let functionName := GetFunctionName hash key
  let r := createResult cfg b
  match r.2 with
  | some _ => some (st, "")
  | none =>
    if r.1 ≠ "" then
      let st1 := { st with endpoints := insertA key [r.1, sdModel] st.endpoints }
      some (putFunc st1 key functionName sdModel r.1, r.1)
    else none

/-- `FuncManager.getEndpointFromCache` (pkg/module): returns element 0 of the
cached slice when the key is present, "" otherwise.  The element-0 access is
`List.headD`; theorem `C10_theorem` shows every cached slice has length 2, so
this agrees with Go's `val[0]`. -/
def getEndpointFromCache (st : MgrState) (key : String) : String :=
  match lookupA st.endpoints key with
  | some val => val.headD ""
  | none => ""

/-- `FuncManager.getEndpointFromDb` (pkg/module): on a store hit caches
`[endpoint, sdModel]` and returns the endpoint; on a miss (or store error)
returns "" leaving the state unchanged. -/
def getEndpointFromDb (st : MgrState) (key : String) : MgrState × String :=
  match lookupA st.store key with
  | some row =>
    ({ st with endpoints := insertA key [row.endpoint, row.sdModel] st.endpoints }, row.endpoint)
  | none => (st, "")

/-- The key `GetEndpoint` resolves (pkg/module, head of `GetEndpoint`):
the model key in multi-function mode when non-empty, otherwise "default". -/
def resolveKey (cfg : Config) (sdModel : String) : String :=
  if cfg.GetFlexMode = FlexMode.MultiFunc ∧ sdModel ≠ "" then sdModel else "default"

/-- The observable outcome of a `GetEndpoint` run that returns: the final
manager/store state, the returned endpoint string, the returned error
(`some "not get sd endpoint"` on exhaustion, `none` on success), and the
instrumentation counters: how many provisioning attempts (`createFunc` calls
reaching the backend) were made and how many milliseconds of retry sleeps
elapsed. -/
structure GEOutcome where
  state : MgrState
  endpoint : String
  err : Option String
  provisionCalls : Nat
  sleptMs : Nat
deriving Repr, DecidableEq

/-- The retry loop body of `FuncManager.GetEndpoint` (pkg/module): per
attempt, cache lookup, then store lookup, then provisioning; each success
records `lastInvokeEndpoint` and returns; a failed attempt sleeps
`RETRY_INTERVALMS` and retries while the budget lasts.  `none` propagates a
panicking `createFunc` run. -/
def getEndpointLoop (hash : String → String) (cfg : Config) (key sdModel : String)
    (oracle : Nat → BackendResp) : Nat → Nat → Nat → MgrState → Option GEOutcome
  | 0, calls, slept, st => some ⟨st, "", some "not get sd endpoint", calls, slept⟩
  | n + 1, calls, slept, st =>
    let cep := getEndpointFromCache st key
    if cep ≠ "" then some ⟨{ st with lastInvokeEndpoint := cep }, cep, none, calls, slept⟩
    else
      let r := getEndpointFromDb st key
      if r.2 ≠ "" then some ⟨{ r.1 with lastInvokeEndpoint := r.2 }, r.2, none, calls, slept⟩
      else
        match createFunc hash cfg r.1 key sdModel (oracle calls) with
        | none => none
        | some res =>
          if res.2 ≠ "" then
            some ⟨{ res.1 with lastInvokeEndpoint := res.2 }, res.2, none, calls + 1, slept⟩
          else
            getEndpointLoop hash cfg key sdModel oracle n (calls + 1)
              (slept + RETRY_INTERVALMS) res.1

/-- `FuncManager.GetEndpoint` (pkg/module): resolves the key and runs the
retry loop with budget `reTry = 2`. -/
def GetEndpoint (hash : String → String) (cfg : Config) (sdModel : String)
    (oracle : Nat → BackendResp) (st : MgrState) : Option GEOutcome :=
  getEndpointLoop hash cfg (resolveKey cfg sdModel) sdModel oracle 2 0 0 st

/-- `FuncManager.GetLastInvokeEndpoint` (pkg/module): nil or empty key returns
the last-used endpoint; a key whose cache lookup yields a non-empty endpoint
records and returns it; otherwise the last-used endpoint is returned. -/
def GetLastInvokeEndpoint (st : MgrState) (sdModel : Option String) : MgrState × String :=
  match sdModel with
  | none => (st, st.lastInvokeEndpoint)
  | some m =>
    if m = "" then (st, st.lastInvokeEndpoint)
    else
      let ep := getEndpointFromCache st m
      if ep ≠ "" then ({ st with lastInvokeEndpoint := ep }, ep)
      else (st, st.lastInvokeEndpoint)

/-- The body of `FuncManager.loadFunc`'s row loop (pkg/module): for each row,
initialise `lastInvokeEndpoint` if still empty and cache
`[endpoint, sdModel]` under the row's key. -/
def loadFuncRows : List (String × StoreRow) → MgrState → MgrState
  | [], st => st
  | (key, row) :: rest, st =>
    loadFuncRows rest
      { st with
        lastInvokeEndpoint :=
          if st.lastInvokeEndpoint = "" then row.endpoint else st.lastInvokeEndpoint,
        endpoints := insertA key [row.endpoint, row.sdModel] st.endpoints }

/-- `FuncManager.loadFunc` (pkg/module): replays every row `ListAll` returns
from the persistent store into the in-memory cache. -/
def loadFunc (st : MgrState) : MgrState := loadFuncRows st.store st

/-- The `FuncResource` struct (pkg/module).  `CPU` is a float32 in the source,
modelled as `Rat`; no analysed control flow reads these fields. -/
structure FuncResource where
  Image : String
  CPU : Rat
  GpuMemorySize : Int
  InstanceType : String
  MemorySize : Int
  Timeout : Int
  Env : List (String × Option String)
deriving Repr

/-- `FuncManager.UpdateFunctionEnv` (pkg/module): a nil `GetFuncResource`
(function absent) is a no-op returning nil; otherwise the env is stamped with
a fresh refresh signal and `UpdateFunction` is pushed, its error surfaced.
`getRes` and `upd` are the backend oracle, keyed by function name. -/
def UpdateFunctionEnv (hash : String → String) (getRes : String → Option FuncResource)
    (upd : String → Option String) (key : String) : Option String :=
  let functionName := GetFunctionName hash key
  match getRes functionName with
  | none => none
  | some _ => upd functionName

/-- The key loop of `FuncManager.UpdateAllFunctionEnv` (pkg/module): calls
`UpdateFunctionEnv` per key, the first failure aborting; also records (as
instrumentation) which keys were attempted, in order. -/
def updateAllEnvLoop (hash : String → String) (getRes : String → Option FuncResource)
    (upd : String → Option String) : List String → Option String × List String
  | [] => (none, [])
  | k :: ks =>
    match UpdateFunctionEnv hash getRes upd k with
    | some e => (some e, [k])
    | none =>
      let r := updateAllEnvLoop hash getRes upd ks
      (r.1, k :: r.2)

/-- `FuncManager.UpdateAllFunctionEnv` (pkg/module): reloads the cache from
the store via `loadFunc`, then runs the env-update loop over every cached
key.  Returns the reloaded state, the surfaced error (nil when every update
succeeded) and, as instrumentation, the keys attempted. -/
def UpdateAllFunctionEnv (hash : String → String) (getRes : String → Option FuncResource)
    (upd : String → Option String) (st : MgrState) : MgrState × Option String × List String :=
  let st1 := loadFunc st
  let r := updateAllEnvLoop hash getRes upd (st1.endpoints.map Prod.fst)
  (st1, r.1, r.2)

/-- `FuncManager.UpdateFunctionResource` (pkg/module): per entry, pushes the
resource spec to the backend (`upd`, keyed by function name; the fc2/fc3
branches have identical bookkeeping); a rejection appends the *function name*
to the failure list and the backend's message to the message list, a success
appends the *key* to the success list.  No abort, no rollback. -/
def UpdateFunctionResource (hash : String → String) (upd : String → Option String) :
    List (String × FuncResource) → List String × List String × List String
  | [] => ([], [], [])
  | (key, _res) :: rest =>
    let functionName := GetFunctionName hash key
    let r := UpdateFunctionResource hash upd rest
    match upd functionName with
    | some e => (r.1, functionName :: r.2.1, e :: r.2.2)
    | none => (key :: r.1, r.2.1, r.2.2)

/-- Modelled from the spec: the `concurrency` package implementing the
cold-start admission controller (`WaitToValid`, `DecColdNum`, `DoneTask`) is
not among the provided source files — only its call sites in the HTTP handler
are.  Per the spec's ColdStartState: per-key in-flight and waiting counters. -/
structure ColdStartState where
  inFlight : Nat
  waiting : Nat
deriving Repr, DecidableEq

/-- Modelled from the spec: `WaitToValid` increments the waiting count; when
no provisioning is in flight for the key and the concurrency ceiling is not
exceeded it transitions to PROVISIONING, increments the in-flight count and
returns true (the caller owns the cold start); otherwise the caller blocks
until the in-flight attempt completes and returns false.  One call of this
function is one linearised admission decision. -/
def WaitToValid (ceiling : Nat) (s : ColdStartState) : ColdStartState × Bool :=
  if s.inFlight = 0 ∧ s.inFlight < ceiling then
    ({ inFlight := s.inFlight + 1, waiting := s.waiting + 1 }, true)
  else
    ({ s with waiting := s.waiting + 1 }, false)

/-- Modelled from the spec: `DecColdNum`, called once by the owner when
provisioning completes, decrements the in-flight count (transitioning back to
IDLE at zero) and releases blocked waiters. -/
def DecColdNum (s : ColdStartState) : ColdStartState :=
  { s with inFlight := s.inFlight - 1 }

/-- The linearisation of `n` concurrent `WaitToValid` calls on one key with no
intervening completion: the admission decisions happen one after another, and
the list of returned booleans is collected in order. -/
def waitRun (ceiling : Nat) : Nat → ColdStartState → ColdStartState × List Bool
  | 0, s => (s, [])
  | n + 1, s =>
    let r := WaitToValid ceiling s
    let r2 := waitRun ceiling n r.1
    (r2.1, r.2 :: r2.2)

/-! ## Association-list lemmas -/

theorem lookupA_insertA_self {α : Type} (key : String) (v : α) (l : List (String × α)) :
    lookupA (insertA key v l) key = some v := by
  induction l with
  | nil => simp [insertA, lookupA]
  | cons p rest ih =>
    obtain ⟨k, w⟩ := p
    by_cases h : k = key
    · simp [insertA, h, lookupA]
    · simp [insertA, h, lookupA, ih]

theorem lookupA_insertA_ne {α : Type} {key k' : String} (h : k' ≠ key) (v : α)
    (l : List (String × α)) : lookupA (insertA key v l) k' = lookupA l k' := by
  induction l with
  | nil => simp [insertA, lookupA, Ne.symm h]
  | cons p rest ih =>
    obtain ⟨k, w⟩ := p
    by_cases hk : k = key
    · subst hk
      simp [insertA, lookupA, Ne.symm h]
    · simp only [insertA, if_neg hk, lookupA, ih]

theorem mem_insertA {α : Type} {p : String × α} {key : String} {v : α}
    {l : List (String × α)} (h : p ∈ insertA key v l) : p.2 = v ∨ p ∈ l := by
  induction l with
  | nil =>
    simp [insertA] at h
    subst h
    exact Or.inl rfl
  | cons q rest ih =>
    obtain ⟨k, w⟩ := q
    by_cases hk : k = key
    · subst hk
      simp [insertA] at h
      rcases h with h | h
      · subst h
        exact Or.inl rfl
      · exact Or.inr (List.mem_cons_of_mem _ h)
    · simp [insertA, hk] at h
      rcases h with h | h
      · subst h
        exact Or.inr (List.mem_cons_self _ _)
      · rcases ih h with h2 | h2
        · exact Or.inl h2
        · exact Or.inr (List.mem_cons_of_mem _ h2)

/-! ## Step lemmas for the GetEndpoint retry loop -/

theorem getEndpointLoop_succ (hash : String → String) (cfg : Config) (key sdModel : String)
    (oracle : Nat → BackendResp) (n c s : Nat) (st : MgrState) :
    getEndpointLoop hash cfg key sdModel oracle (n + 1) c s st =
      (let cep := getEndpointFromCache st key
       if cep ≠ "" then some ⟨{ st with lastInvokeEndpoint := cep }, cep, none, c, s⟩
       else
         let r := getEndpointFromDb st key
         if r.2 ≠ "" then some ⟨{ r.1 with lastInvokeEndpoint := r.2 }, r.2, none, c, s⟩
         else
           match createFunc hash cfg r.1 key sdModel (oracle c) with
           | none => none
           | some res =>
             if res.2 ≠ "" then
               some ⟨{ res.1 with lastInvokeEndpoint := res.2 }, res.2, none, c + 1, s⟩
             else
               getEndpointLoop hash cfg key sdModel oracle n (c + 1)
                 (s + RETRY_INTERVALMS) res.1) := rfl

theorem loop_cache_hit (hash : String → String) (cfg : Config) (key sdModel : String)
    (oracle : Nat → BackendResp) (n c s : Nat) (st : MgrState)
    (h : getEndpointFromCache st key ≠ "") :
    getEndpointLoop hash cfg key sdModel oracle (n + 1) c s st =
      some ⟨{ st with lastInvokeEndpoint := getEndpointFromCache st key },
        getEndpointFromCache st key, none, c, s⟩ := by
  rw [getEndpointLoop_succ]
  simp [h]

theorem loop_miss_create_err (hash : String → String) (cfg : Config) (key sdModel : String)
    (oracle : Nat → BackendResp) (n c s : Nat) (st : MgrState) (e : String)
    (hc : getEndpointFromCache st key = "")
    (hd : lookupA st.store key = none)
    (he : (createResult cfg (oracle c)).2 = some e) :
    getEndpointLoop hash cfg key sdModel oracle (n + 1) c s st =
      getEndpointLoop hash cfg key sdModel oracle n (c + 1) (s + RETRY_INTERVALMS) st := by
  rw [getEndpointLoop_succ]
  simp [hc, getEndpointFromDb, hd, createFunc, he]

theorem loop_miss_create_ok (hash : String → String) (cfg : Config) (key sdModel : String)
    (oracle : Nat → BackendResp) (n c s : Nat) (st : MgrState) (E : String)
    (hc : getEndpointFromCache st key = "")
    (hd : lookupA st.store key = none)
    (he : createResult cfg (oracle c) = (E, none)) (hE : E ≠ "") :
    getEndpointLoop hash cfg key sdModel oracle (n + 1) c s st =
      some ⟨{ st with
          endpoints := insertA key [E, sdModel] st.endpoints,
          store := insertA key
            ({ sdModel := sdModel, functionName := GetFunctionName hash key,
               endpoint := E }) st.store,
          lastInvokeEndpoint := E }, E, none, c + 1, s⟩ := by
  rw [getEndpointLoop_succ]
  simp [hc, getEndpointFromDb, hd, createFunc, he, hE, putFunc]

theorem loop_miss_create_panic (hash : String → String) (cfg : Config) (key sdModel : String)
    (oracle : Nat → BackendResp) (n c s : Nat) (st : MgrState)
    (hc : getEndpointFromCache st key = "")
    (hd : lookupA st.store key = none)
    (he : createResult cfg (oracle c) = ("", none)) :
    getEndpointLoop hash cfg key sdModel oracle (n + 1) c s st = none := by
  rw [getEndpointLoop_succ]
  simp [hc, getEndpointFromDb, hd, createFunc, he]

/-! ## Concrete fixtures used by counterexamples and witnesses -/

/-- A concrete instantiation of the abstract `utils.Hash` parameter. -/
def hashId : String → String := fun s => s

/-- A configuration selecting the fc2.0 generation (non-empty service name),
multi-function mode. -/
def cfgFc2 : Config := { serviceName := "svc", serverName := "sd", flexMode := "multiFunc" }

/-- A configuration selecting the fc3.0 generation (empty service name),
multi-function mode. -/
def cfgFc3 : Config := { serviceName := "", serverName := "sd", flexMode := "multiFunc" }

/-- A configuration in single-function mode. -/
def cfgSingle : Config := { serviceName := "svc", serverName := "sd", flexMode := "singleFunc" }

/-- A backend that provisions successfully on every attempt. -/
def oracleOk : Nat → BackendResp := fun _ => ⟨true, none, Except.ok "http://e"⟩

/-- A backend whose CreateFunction call is rejected on every attempt. -/
def oracleErr : Nat → BackendResp := fun _ => ⟨true, some "create rejected", Except.ok "unused"⟩

/-- A backend whose first CreateFunction call is rejected and whose second
attempt succeeds. -/
def oracleC1 : Nat → BackendResp := fun n =>
  if n = 0 then ⟨true, some "create rejected", Except.ok "unused"⟩
  else ⟨true, none, Except.ok "http://e"⟩

/-- A backend whose fc3 reference function is unreadable on every attempt. -/
def oracleRefDown : Nat → BackendResp := fun _ => ⟨false, none, Except.ok "unused"⟩

/-- A backend whose CreateFunction and CreateTrigger calls succeed but whose
trigger response carries an empty UrlInternet. -/
def oracleEmptyUrl : Nat → BackendResp := fun _ => ⟨true, none, Except.ok ""⟩

/-- The manager/store state after a first successful cold start of `sdModel`
from the empty state: the resolved key is bound to the created endpoint in
both cache and store. -/
def c1State (hash : String → String) (cfg : Config) (sdModel E : String) : MgrState :=
  { endpoints := [(resolveKey cfg sdModel, [E, sdModel])],
    store := [(resolveKey cfg sdModel,
      { sdModel := sdModel, functionName := GetFunctionName hash (resolveKey cfg sdModel),
        endpoint := E })],
    lastInvokeEndpoint := E }

/-! ## Claim theorems -/

/-- C1 (counterexample): a successful `GetEndpoint` need not invoke backend
provisioning exactly once.  From the empty state, with the backend rejecting
the first CreateFunction call and succeeding on the retry, the call succeeds
(no error) yet `provisionCalls = 2`. -/
theorem C1_counterexample :
    GetEndpoint hashId cfgFc2 "modelX" oracleC1 initState =
      some ⟨⟨[("modelX", ["http://e", "modelX"])],
             [("modelX", ⟨"modelX", "sd_modelX", "http://e"⟩)], "http://e"⟩,
            "http://e", none, 2, 10⟩ ∧
    (GetEndpoint hashId cfgFc2 "modelX" oracleC1 initState).map GEOutcome.provisionCalls
      ≠ some 1 :=
  ⟨rfl, by decide⟩

/-- C1 (amended): starting from an empty cache and empty store, a
`GetEndpoint(k)` whose first provisioning attempt succeeds invokes backend
provisioning exactly once and leaves both the cache and the store containing
the binding of the resolved key to the created endpoint; every subsequent
`GetEndpoint(k)` on the resulting state returns the same endpoint from the
cache with zero provisioning invocations, whatever the backend would answer. -/
theorem C1_theorem (hash : String → String) (cfg : Config) (sdModel E : String)
    (oracle : Nat → BackendResp)
    (hE : E ≠ "") (hsucc : createResult cfg (oracle 0) = (E, none)) :
    GetEndpoint hash cfg sdModel oracle initState =
      some ⟨c1State hash cfg sdModel E, E, none, 1, 0⟩ ∧
    lookupA (c1State hash cfg sdModel E).endpoints (resolveKey cfg sdModel) =
      some [E, sdModel] ∧
    lookupA (c1State hash cfg sdModel E).store (resolveKey cfg sdModel) =
      some ({ sdModel := sdModel,
              functionName := GetFunctionName hash (resolveKey cfg sdModel),
              endpoint := E }) ∧
    ∀ oracle2, GetEndpoint hash cfg sdModel oracle2 (c1State hash cfg sdModel E) =
      some ⟨c1State hash cfg sdModel E, E, none, 0, 0⟩ := by
  refine ⟨?_, ?_, ?_, ?_⟩
  · rw [GetEndpoint,
      loop_miss_create_ok hash cfg _ sdModel oracle 1 0 0 initState E rfl rfl hsucc hE]
    simp [c1State, initState, insertA]
  · simp [c1State, lookupA]
  · simp [c1State, lookupA]
  · intro oracle2
    have hcache : getEndpointFromCache (c1State hash cfg sdModel E) (resolveKey cfg sdModel)
        = E := by
      simp [getEndpointFromCache, c1State, lookupA]
    rw [GetEndpoint, loop_cache_hit _ _ _ _ _ 1 0 0 _ (by rw [hcache]; exact hE), hcache]
    simp [c1State]

/-- C1 (witness): the amended theorem at a concrete happy-path input, and the
zero-provisioning second call on the resulting state. -/
theorem C1_witness :
    GetEndpoint hashId cfgFc2 "modelX" oracleOk initState =
      some ⟨c1State hashId cfgFc2 "modelX" "http://e", "http://e", none, 1, 0⟩ ∧
    GetEndpoint hashId cfgFc2 "modelX" oracleOk (c1State hashId cfgFc2 "modelX" "http://e") =
      some ⟨c1State hashId cfgFc2 "modelX" "http://e", "http://e", none, 0, 0⟩ :=
  ⟨(C1_theorem hashId cfgFc2 "modelX" "http://e" oracleOk (by decide) rfl).1,
   (C1_theorem hashId cfgFc2 "modelX" "http://e" oracleOk (by decide) rfl).2.2.2 oracleOk⟩

/-- C3: when the cache misses, the store misses and every backend provisioning
attempt fails, `GetEndpoint` sleeps the fixed `RETRY_INTERVALMS` interval
after each of its two attempts, leaves the state untouched, and returns the
empty endpoint together with the "not get sd endpoint" error. -/
theorem C3_theorem (hash : String → String) (cfg : Config) (sdModel e0 e1 : String)
    (oracle : Nat → BackendResp) (st : MgrState)
    (hc : getEndpointFromCache st (resolveKey cfg sdModel) = "")
    (hd : lookupA st.store (resolveKey cfg sdModel) = none)
    (h0 : (createResult cfg (oracle 0)).2 = some e0)
    (h1 : (createResult cfg (oracle 1)).2 = some e1) :
    GetEndpoint hash cfg sdModel oracle st =
      some ⟨st, "", some "not get sd endpoint", 2, 2 * RETRY_INTERVALMS⟩ := by
  rw [GetEndpoint, loop_miss_create_err hash cfg _ sdModel oracle 1 0 0 st e0 hc hd h0,
    loop_miss_create_err hash cfg _ sdModel oracle 0 (0 + 1) (0 + RETRY_INTERVALMS) st e1
      hc hd h1]
  simp [getEndpointLoop, RETRY_INTERVALMS]

/-- C3 (witness): the theorem at a concrete always-failing backend. -/
theorem C3_witness :
    GetEndpoint hashId cfgFc2 "m" oracleErr initState =
      some ⟨initState, "", some "not get sd endpoint", 2, 2 * RETRY_INTERVALMS⟩ :=
  C3_theorem hashId cfgFc2 "m" "create rejected" "create rejected" oracleErr initState
    rfl rfl rfl rfl

/-- C4 (counterexample): with the fc3 reference function unreadable on every
attempt, `GetEndpoint` from the empty state makes two provisioning attempts —
the configuration failure is retried, contradicting the claim that it is
not. -/
theorem C4_counterexample :
    GetEndpoint hashId cfgFc3 "m" oracleRefDown initState =
      some ⟨initState, "", some "not get sd endpoint", 2, 20⟩ ∧
    (GetEndpoint hashId cfgFc3 "m" oracleRefDown initState).map GEOutcome.provisionCalls
      ≠ some 1 :=
  ⟨rfl, by decide⟩

/-- C4 (amended): when the reference function cannot be read, the fc3
provisioning attempt fails fast with the configuration error
"get createFunctionRequest error" (whatever the other backend calls would
answer), but `GetEndpoint` nevertheless retries provisioning on its next
attempt, exhausting the fixed budget of two attempts before surfacing the
"not get sd endpoint" error. -/
theorem C4_theorem :
    (∀ b : BackendResp, b.refFuncReadable = false →
      createFc3Function b = ("", some "get createFunctionRequest error")) ∧
    ∀ (hash : String → String) (cfg : Config) (sdModel : String)
      (oracle : Nat → BackendResp) (st : MgrState),
      isFc3 cfg = true → (∀ i, (oracle i).refFuncReadable = false) →
      getEndpointFromCache st (resolveKey cfg sdModel) = "" →
      lookupA st.store (resolveKey cfg sdModel) = none →
      GetEndpoint hash cfg sdModel oracle st =
        some ⟨st, "", some "not get sd endpoint", 2, 2 * RETRY_INTERVALMS⟩ := by
  constructor
  · intro b hb
    simp [createFc3Function, hb]
  · intro hash cfg sdModel oracle st h3 href hc hd
    have hcr : ∀ i, (createResult cfg (oracle i)).2 = some "get createFunctionRequest error" := by
      intro i
      simp [createResult, h3, createFc3Function, href i]
    rw [GetEndpoint, loop_miss_create_err hash cfg _ sdModel oracle 1 0 0 st _ hc hd (hcr 0),
      loop_miss_create_err hash cfg _ sdModel oracle 0 (0 + 1) (0 + RETRY_INTERVALMS) st _
        hc hd (hcr 1)]
    simp [getEndpointLoop, RETRY_INTERVALMS]

/-- C4 (witness): the amended theorem at concrete inputs — the fail-fast
equation at one concrete backend response and the retried run at an
always-unreadable backend. -/
theorem C4_witness :
    createFc3Function ⟨false, some "x", Except.ok "y"⟩ =
      ("", some "get createFunctionRequest error") ∧
    GetEndpoint hashId cfgFc3 "m" oracleRefDown initState =
      some ⟨initState, "", some "not get sd endpoint", 2, 2 * RETRY_INTERVALMS⟩ :=
  ⟨C4_theorem.1 ⟨false, some "x", Except.ok "y"⟩ rfl,
   C4_theorem.2 hashId cfgFc3 "m" oracleRefDown initState rfl (fun _ => rfl) rfl rfl⟩

/-- C5: the subsystem is not panic-free.  When the backend's CreateFunction
and CreateTrigger calls succeed but the trigger response carries an empty
UrlInternet, `createFunc` reaches its else-branch with a nil error and
evaluates `err.Error()` — a nil-pointer dereference; the embedding marks the
run as `none`.  The claim that no operation panics for any backend response
is therefore violated by the code. -/
theorem C5_theorem : GetEndpoint hashId cfgFc2 "m" oracleEmptyUrl initState = none := rfl

/-- C8: `GetEndpoint` resolves the fixed key "default" whenever the
deployment is in single-function mode (for every input model key) or the
input model key is empty, and its retry loop runs under that key. -/
theorem C8_theorem (hash : String → String) (cfg : Config) (sdModel : String)
    (oracle : Nat → BackendResp) (st : MgrState)
    (h : cfg.GetFlexMode = FlexMode.SingleFunc ∨ sdModel = "") :
    resolveKey cfg sdModel = "default" ∧
    GetEndpoint hash cfg sdModel oracle st =
      getEndpointLoop hash cfg "default" sdModel oracle 2 0 0 st := by
  have hk : resolveKey cfg sdModel = "default" := by
    rcases h with h | h
    · simp [resolveKey, h]
    · simp [resolveKey, h]
  exact ⟨hk, by rw [GetEndpoint, hk]⟩

/-- C8 (witness): the theorem in single-function mode at a non-empty model
key, and at an empty model key in multi-function mode. -/
theorem C8_witness :
    (resolveKey cfgSingle "modelX" = "default" ∧
      GetEndpoint hashId cfgSingle "modelX" oracleOk initState =
        getEndpointLoop hashId cfgSingle "default" "modelX" oracleOk 2 0 0 initState) ∧
    resolveKey cfgFc2 "" = "default" :=
  ⟨C8_theorem hashId cfgSingle "modelX" oracleOk initState (Or.inl rfl),
   (C8_theorem hashId cfgFc2 "" oracleOk initState (Or.inr rfl)).1⟩

/-! ## Admission controller lemmas (spec-modelled, see `WaitToValid`) -/

theorem waitRun_allFalse (ceiling n : Nat) :
    ∀ s : ColdStartState, s.inFlight ≠ 0 →
      (waitRun ceiling n s).2 = List.replicate n false := by
  induction n with
  | zero => intro s _; rfl
  | succ m ih =>
    intro s h
    have hW : WaitToValid ceiling s = ({ s with waiting := s.waiting + 1 }, false) := by
      simp [WaitToValid, h]
    simp only [waitRun, hW]
    simp [ih { s with waiting := s.waiting + 1 } h, List.replicate_succ]

/-- C2: for `n ≥ 2` linearised concurrent `WaitToValid` calls on a key with no
in-flight provisioning (and a positive concurrency ceiling), exactly the first
caller receives true — it owns the cold start — and every other caller
receives false; in particular exactly one true is returned.  The admission
controller is modelled from the spec (its package is not among the source
files), and "concurrent" is read as an arbitrary interleaving, linearised,
with no completion in between. -/
theorem C2_theorem (ceiling n : Nat) (s : ColdStartState)
    (hn : 2 ≤ n) (hcap : 1 ≤ ceiling) (h0 : s.inFlight = 0) :
    (waitRun ceiling n s).2 = true :: List.replicate (n - 1) false ∧
    (waitRun ceiling n s).2.count true = 1 := by
  obtain ⟨m, rfl⟩ : ∃ m, n = m + 1 := ⟨n - 1, by omega⟩
  have hW : WaitToValid ceiling s =
      ({ inFlight := s.inFlight + 1, waiting := s.waiting + 1 }, true) := by
    simp [WaitToValid, h0]
    omega
  have hlist : (waitRun ceiling (m + 1) s).2 = true :: List.replicate m false := by
    simp only [waitRun, hW]
    simp [waitRun_allFalse ceiling m { inFlight := s.inFlight + 1, waiting := s.waiting + 1 }
      (by simp)]
  constructor
  · rw [hlist]
    simp
  · rw [hlist]
    simp [List.count_cons, List.count_replicate]

/-- C2 (witness): three linearised callers, ceiling 10, idle key. -/
theorem C2_witness :
    (waitRun 10 3 ⟨0, 0⟩).2 = true :: List.replicate 2 false ∧
    (waitRun 10 3 ⟨0, 0⟩).2.count true = 1 :=
  C2_theorem 10 3 ⟨0, 0⟩ (by decide) (by decide) rfl

/-! ## Batch resource update (C6) -/

/-- A concrete resource spec (its fields never drive control flow). -/
def sampleRes : FuncResource :=
  { Image := "img", CPU := 1, GpuMemorySize := 16384, InstanceType := "fc.gpu.tesla.1",
    MemorySize := 32768, Timeout := 600, Env := [] }

/-- A backend rejecting exactly the function derived from key "B". -/
def updC6 : String → Option String :=
  fun fn => if fn = "sd_B" then some "backend rejected" else none

theorem length_filter_isSome {α β : Type} (f : α → Option β) (l : List α) :
    (l.filter (fun a => (f a).isSome)).length = (l.filterMap f).length := by
  induction l with
  | nil => rfl
  | cons a rest ih =>
    cases h : f a <;> simp [List.filter_cons, List.filterMap_cons, h, ih]

theorem UpdateFunctionResource_spec (hash : String → String) (upd : String → Option String)
    (resources : List (String × FuncResource)) :
    (UpdateFunctionResource hash upd resources).1 =
      (resources.filter (fun kv => (upd (GetFunctionName hash kv.1)).isNone)).map Prod.fst ∧
    (UpdateFunctionResource hash upd resources).2.1 =
      (resources.filter (fun kv => (upd (GetFunctionName hash kv.1)).isSome)).map
        (fun kv => GetFunctionName hash kv.1) ∧
    (UpdateFunctionResource hash upd resources).2.2 =
      resources.filterMap (fun kv => upd (GetFunctionName hash kv.1)) := by
  induction resources with
  | nil => exact ⟨rfl, rfl, rfl⟩
  | cons kv rest ih =>
    obtain ⟨key, res⟩ := kv
    obtain ⟨ih1, ih2, ih3⟩ := ih
    cases h : upd (GetFunctionName hash key) with
    | none =>
      refine ⟨?_, ?_, ?_⟩ <;>
        simp [UpdateFunctionResource, h, List.filter_cons, List.filterMap_cons, ih1, ih2, ih3]
    | some e =>
      refine ⟨?_, ?_, ?_⟩ <;>
        simp [UpdateFunctionResource, h, List.filter_cons, List.filterMap_cons, ih1, ih2, ih3]

/-- C6 (counterexample): over keys A (accepted) and B (rejected), the failure
list holds the derived function name "sd_B", not the key "B" itself — the
claim that a failing key appears in the failure list is false as stated. -/
theorem C6_counterexample :
    UpdateFunctionResource hashId updC6 [("A", sampleRes), ("B", sampleRes)] =
      (["A"], ["sd_B"], ["backend rejected"]) ∧
    "B" ∉ (UpdateFunctionResource hashId updC6 [("A", sampleRes), ("B", sampleRes)]).2.1 :=
  ⟨rfl, by decide⟩

/-- C6 (amended): `UpdateFunctionResource` applies every entry's spec
independently — each entry's outcome is a function of its own backend answer
only, so one key's rejection never prevents the others; the success list
collects exactly the accepted keys, the failure list the *derived function
names* of the rejected keys, index-aligned with the backend's error messages;
the failure and message lists have equal length, and every input key's
outcome lands in exactly one list (accepted keys in the success list,
rejected keys — via their function name and message — in the failure and
message lists); the iteration never aborts early and never rolls back. -/
theorem C6_theorem (hash : String → String) (upd : String → Option String)
    (resources : List (String × FuncResource)) :
    (UpdateFunctionResource hash upd resources).1 =
      (resources.filter (fun kv => (upd (GetFunctionName hash kv.1)).isNone)).map Prod.fst ∧
    (UpdateFunctionResource hash upd resources).2.1 =
      (resources.filter (fun kv => (upd (GetFunctionName hash kv.1)).isSome)).map
        (fun kv => GetFunctionName hash kv.1) ∧
    (UpdateFunctionResource hash upd resources).2.2 =
      resources.filterMap (fun kv => upd (GetFunctionName hash kv.1)) ∧
    (UpdateFunctionResource hash upd resources).2.1.length =
      (UpdateFunctionResource hash upd resources).2.2.length ∧
    ∀ kv ∈ resources,
      (upd (GetFunctionName hash kv.1) = none →
        kv.1 ∈ (UpdateFunctionResource hash upd resources).1) ∧
      ∀ e, upd (GetFunctionName hash kv.1) = some e →
        GetFunctionName hash kv.1 ∈ (UpdateFunctionResource hash upd resources).2.1 ∧
        e ∈ (UpdateFunctionResource hash upd resources).2.2 := by
  obtain ⟨h1, h2, h3⟩ := UpdateFunctionResource_spec hash upd resources
  refine ⟨h1, h2, h3, ?_, ?_⟩
  · rw [h2, h3, List.length_map]
    exact length_filter_isSome _ _
  · intro kv hkv
    constructor
    · intro h
      rw [h1]
      exact List.mem_map.2 ⟨kv, List.mem_filter.2 ⟨hkv, by simp [h]⟩, rfl⟩
    · intro e he
      constructor
      · rw [h2]
        exact List.mem_map.2 ⟨kv, List.mem_filter.2 ⟨hkv, by simp [he]⟩, rfl⟩
      · rw [h3]
        exact List.mem_filterMap.2 ⟨kv, hkv, he⟩

/-- C6 (witness): the amended theorem at the two-key batch with B rejected —
equal failure/message lengths, A accepted into the success list, B's function
name and message recorded. -/
theorem C6_witness :
    (UpdateFunctionResource hashId updC6 [("A", sampleRes), ("B", sampleRes)]).2.1.length =
      (UpdateFunctionResource hashId updC6 [("A", sampleRes), ("B", sampleRes)]).2.2.length ∧
    "A" ∈ (UpdateFunctionResource hashId updC6 [("A", sampleRes), ("B", sampleRes)]).1 ∧
    "sd_B" ∈ (UpdateFunctionResource hashId updC6 [("A", sampleRes), ("B", sampleRes)]).2.1 ∧
    "backend rejected" ∈
      (UpdateFunctionResource hashId updC6 [("A", sampleRes), ("B", sampleRes)]).2.2 :=
  ⟨(C6_theorem hashId updC6 [("A", sampleRes), ("B", sampleRes)]).2.2.2.1,
   ((C6_theorem hashId updC6 [("A", sampleRes), ("B", sampleRes)]).2.2.2.2 ("A", sampleRes)
      (List.mem_cons_self _ _)).1 rfl,
   (((C6_theorem hashId updC6 [("A", sampleRes), ("B", sampleRes)]).2.2.2.2 ("B", sampleRes)
      (List.mem_cons_of_mem _ (List.mem_cons_self _ _))).2 "backend rejected" rfl).1,
   (((C6_theorem hashId updC6 [("A", sampleRes), ("B", sampleRes)]).2.2.2.2 ("B", sampleRes)
      (List.mem_cons_of_mem _ (List.mem_cons_self _ _))).2 "backend rejected" rfl).2⟩

/-! ## Reload and batch env update (C7) -/

theorem loadFuncRows_endpoints_notMem (rows : List (String × StoreRow)) :
    ∀ (st : MgrState) (k : String), k ∉ rows.map Prod.fst →
      lookupA (loadFuncRows rows st).endpoints k = lookupA st.endpoints k := by
  induction rows with
  | nil => intro st k _; rfl
  | cons p rest ih =>
    obtain ⟨key, row⟩ := p
    intro st k h
    rw [List.map_cons] at h
    have h1 : k ≠ key := fun he => h (by simp [he])
    have h2 : k ∉ rest.map Prod.fst := fun hm => h (List.mem_cons_of_mem _ hm)
    rw [loadFuncRows, ih _ k h2]
    exact lookupA_insertA_ne h1 _ _

theorem loadFuncRows_lookup (rows : List (String × StoreRow)) :
    ∀ (st : MgrState) (k : String) (row : StoreRow),
      (rows.map Prod.fst).Nodup → lookupA rows k = some row →
      lookupA (loadFuncRows rows st).endpoints k = some [row.endpoint, row.sdModel] := by
  induction rows with
  | nil => intro st k row _ h; cases h
  | cons p rest ih =>
    obtain ⟨key, r0⟩ := p
    intro st k row hnd hl
    rw [List.map_cons, List.nodup_cons] at hnd
    by_cases hk : key = k
    · subst hk
      rw [lookupA, if_pos rfl] at hl
      injection hl with hl
      rw [loadFuncRows, loadFuncRows_endpoints_notMem rest _ key hnd.1,
        lookupA_insertA_self, hl]
    · rw [lookupA, if_neg hk] at hl
      rw [loadFuncRows]
      exact ih _ k row hnd.2 hl

theorem updateAllEnvLoop_allOk (hash : String → String)
    (getRes : String → Option FuncResource) (upd : String → Option String) :
    ∀ ks : List String, (∀ k ∈ ks, UpdateFunctionEnv hash getRes upd k = none) →
      updateAllEnvLoop hash getRes upd ks = (none, ks) := by
  intro ks
  induction ks with
  | nil => intro _; rfl
  | cons k rest ih =>
    intro h
    have hk := h k (List.mem_cons_self _ _)
    have hr := ih (fun x hx => h x (List.mem_cons_of_mem _ hx))
    simp [updateAllEnvLoop, hk, hr]

theorem updateAllEnvLoop_firstErr (hash : String → String)
    (getRes : String → Option FuncResource) (upd : String → Option String) :
    ∀ (ks1 : List String) (k : String) (ks2 : List String) (e : String),
      (∀ x ∈ ks1, UpdateFunctionEnv hash getRes upd x = none) →
      UpdateFunctionEnv hash getRes upd k = some e →
      updateAllEnvLoop hash getRes upd (ks1 ++ k :: ks2) = (some e, ks1 ++ [k]) := by
  intro ks1
  induction ks1 with
  | nil =>
    intro k ks2 e _ hk
    simp [updateAllEnvLoop, hk]
  | cons a rest ih =>
    intro k ks2 e h1 hk
    have ha := h1 a (List.mem_cons_self _ _)
    have hr := ih k ks2 e (fun x hx => h1 x (List.mem_cons_of_mem _ hx)) hk
    simp [updateAllEnvLoop, ha, hr]

/-- C7: `UpdateAllFunctionEnv` first reloads every persisted binding into the
in-memory cache (for a store whose keys are distinct, each persisted row ends
up cached as [endpoint, sdModel]), then calls `UpdateFunctionEnv` for every
cached key in order; when every call succeeds the whole key list is attempted
and no error is returned, while the first failing key aborts the remaining
keys and its error is surfaced to the caller. -/
theorem C7_theorem (hash : String → String) (getRes : String → Option FuncResource)
    (upd : String → Option String) (st : MgrState) :
    ((st.store.map Prod.fst).Nodup → ∀ (k : String) (row : StoreRow),
      lookupA st.store k = some row →
      lookupA (loadFunc st).endpoints k = some [row.endpoint, row.sdModel]) ∧
    ((∀ k ∈ (loadFunc st).endpoints.map Prod.fst,
        UpdateFunctionEnv hash getRes upd k = none) →
      UpdateAllFunctionEnv hash getRes upd st =
        (loadFunc st, none, (loadFunc st).endpoints.map Prod.fst)) ∧
    (∀ (ks1 : List String) (k : String) (ks2 : List String) (e : String),
      (loadFunc st).endpoints.map Prod.fst = ks1 ++ k :: ks2 →
      (∀ x ∈ ks1, UpdateFunctionEnv hash getRes upd x = none) →
      UpdateFunctionEnv hash getRes upd k = some e →
      UpdateAllFunctionEnv hash getRes upd st = (loadFunc st, some e, ks1 ++ [k])) := by
  refine ⟨?_, ?_, ?_⟩
  · intro hnd k row hl
    exact loadFuncRows_lookup st.store st k row hnd hl
  · intro h
    rw [UpdateAllFunctionEnv, updateAllEnvLoop_allOk hash getRes upd _ h]
  · intro ks1 k ks2 e hsplit h1 hk
    rw [UpdateAllFunctionEnv, hsplit, updateAllEnvLoop_firstErr hash getRes upd ks1 k ks2 e h1 hk]

/-- A one-row store used to witness C7. -/
def stC7 : MgrState :=
  { endpoints := [], store := [("k1", ⟨"m1", "fn1", "e1"⟩)], lastInvokeEndpoint := "" }

/-- C7 (witness): the theorem at a one-binding store — the reload conjunct, an
all-successful batch, and a batch aborted by its first (only) key. -/
theorem C7_witness :
    lookupA (loadFunc stC7).endpoints "k1" = some ["e1", "m1"] ∧
    UpdateAllFunctionEnv hashId (fun _ => none) (fun _ => none) stC7 =
      (loadFunc stC7, none, (loadFunc stC7).endpoints.map Prod.fst) ∧
    UpdateAllFunctionEnv hashId (fun _ => some sampleRes) (fun _ => some "env update failed")
      stC7 = (loadFunc stC7, some "env update failed", [] ++ ["k1"]) :=
  ⟨(C7_theorem hashId (fun _ => none) (fun _ => none) stC7).1 (by decide) "k1"
      ⟨"m1", "fn1", "e1"⟩ rfl,
   (C7_theorem hashId (fun _ => none) (fun _ => none) stC7).2.1 (fun _ _ => rfl),
   (C7_theorem hashId (fun _ => some sampleRes) (fun _ => some "env update failed") stC7).2.2
      [] "k1" [] "env update failed" rfl (fun x hx => absurd hx (List.not_mem_nil x)) rfl⟩

/-! ## GetLastInvokeEndpoint (C9) -/

/-- A reachable state in which key "m" is present in the cache but with an
empty cached endpoint: built by letting `getEndpointFromDb` cache a persisted
row whose endpoint column is empty. -/
def stC9 : MgrState :=
  (getEndpointFromDb
    { endpoints := [], store := [("m", ⟨"m", "sd_m", ""⟩)], lastInvokeEndpoint := "X" }
    "m").1

/-- C9 (counterexample): key "m" is present in the cache of `stC9` (so the
claim prescribes returning its cached endpoint, here ""), yet
`GetLastInvokeEndpoint` returns the last-used endpoint "X" instead: presence
in the cache is not the code's criterion — a non-empty cached endpoint is. -/
theorem C9_counterexample :
    (lookupA stC9.endpoints "m").isSome = true ∧
    lookupA stC9.endpoints "m" = some ["", "m"] ∧
    getEndpointFromCache stC9 "m" = "" ∧
    GetLastInvokeEndpoint stC9 (some "m") = (stC9, "X") :=
  ⟨rfl, rfl, rfl, rfl⟩

/-- C9 (amended): `GetLastInvokeEndpoint` performs no provisioning and never
touches the cache or the store; for a non-empty key whose cache lookup yields
a non-empty endpoint it records that endpoint as last-used and returns it;
otherwise — nil key, empty key, key absent, or cached endpoint empty — it
returns the most recently resolved endpoint, which is the empty string on a
freshly initialised manager. -/
theorem C9_theorem :
    (∀ (st : MgrState) (k : Option String),
      (GetLastInvokeEndpoint st k).1.endpoints = st.endpoints ∧
      (GetLastInvokeEndpoint st k).1.store = st.store) ∧
    (∀ (st : MgrState) (m : String), m ≠ "" → getEndpointFromCache st m ≠ "" →
      GetLastInvokeEndpoint st (some m) =
        ({ st with lastInvokeEndpoint := getEndpointFromCache st m },
          getEndpointFromCache st m)) ∧
    (∀ st : MgrState,
      GetLastInvokeEndpoint st none = (st, st.lastInvokeEndpoint) ∧
      GetLastInvokeEndpoint st (some "") = (st, st.lastInvokeEndpoint)) ∧
    (∀ (st : MgrState) (m : String), m ≠ "" → getEndpointFromCache st m = "" →
      GetLastInvokeEndpoint st (some m) = (st, st.lastInvokeEndpoint)) ∧
    initState.lastInvokeEndpoint = "" := by
  refine ⟨?_, ?_, ?_, ?_, rfl⟩
  · intro st k
    cases k with
    | none => exact ⟨rfl, rfl⟩
    | some m =>
      by_cases hm : m = ""
      · simp [GetLastInvokeEndpoint, hm]
      · by_cases he : getEndpointFromCache st m = ""
        · simp [GetLastInvokeEndpoint, hm, he]
        · simp [GetLastInvokeEndpoint, hm, he]
  · intro st m hm he
    simp [GetLastInvokeEndpoint, hm, he]
  · intro st
    exact ⟨rfl, rfl⟩
  · intro st m hm he
    simp [GetLastInvokeEndpoint, hm, he]

/-- A cache with one non-empty binding, used to witness C9. -/
def stC9b : MgrState :=
  { endpoints := [("m", ["http://e", "m"])], store := [], lastInvokeEndpoint := "old" }

/-- C9 (witness): the amended theorem at a concrete cached key, a nil key and
an absent key. -/
theorem C9_witness :
    GetLastInvokeEndpoint stC9b (some "m") =
      ({ stC9b with lastInvokeEndpoint := "http://e" }, "http://e") ∧
    GetLastInvokeEndpoint stC9b none = (stC9b, "old") ∧
    GetLastInvokeEndpoint stC9b (some "absent") = (stC9b, "old") :=
  ⟨C9_theorem.2.1 stC9b "m" (by decide) (by decide),
   (C9_theorem.2.2.1 stC9b).1,
   C9_theorem.2.2.2.1 stC9b "absent" (by decide) rfl⟩

/-! ## Cache slice-shape invariant (C10) -/

/-- The invariant of the in-memory cache: every stored value is a slice of
exactly two strings, [endpoint, modelIdentifier]. -/
def WF (st : MgrState) : Prop := ∀ p ∈ st.endpoints, (Prod.snd p).length = 2

theorem WF_insert {l : List (String × List String)}
    (h : ∀ p ∈ l, (Prod.snd p).length = 2) (k : String) {v : List String}
    (hv : v.length = 2) : ∀ p ∈ insertA k v l, (Prod.snd p).length = 2 := by
  intro p hp
  rcases mem_insertA hp with h2 | h2
  · rw [h2, hv]
  · exact h p h2

theorem lookupA_mem {α : Type} {l : List (String × α)} {k : String} {v : α}
    (h : lookupA l k = some v) : (k, v) ∈ l := by
  induction l with
  | nil => cases h
  | cons p rest ih =>
    obtain ⟨k0, v0⟩ := p
    by_cases hk : k0 = k
    · subst hk
      rw [lookupA, if_pos rfl] at h
      injection h with h
      subst h
      exact List.mem_cons_self _ _
    · rw [lookupA, if_neg hk] at h
      exact List.mem_cons_of_mem _ (ih h)

theorem loadFuncRows_WF (rows : List (String × StoreRow)) :
    ∀ st : MgrState, WF st → WF (loadFuncRows rows st) := by
  induction rows with
  | nil => intro st h; exact h
  | cons p rest ih =>
    obtain ⟨key, row⟩ := p
    intro st h
    rw [loadFuncRows]
    exact ih _ (WF_insert h key rfl)

/-- C10: the cache slice-shape invariant — it holds initially, it is
preserved by every operation that writes the endpoints map (`createFunc`,
`getEndpointFromDb`, `loadFunc`), and under it every cache lookup yields a
slice of length two, so `getEndpointFromCache`'s unconditional access to
element 0 of a present entry is in bounds. -/
theorem C10_theorem :
    WF initState ∧
    (∀ (st : MgrState) (k : String), WF st → WF (getEndpointFromDb st k).1) ∧
    (∀ (hash : String → String) (cfg : Config) (st : MgrState) (k m : String)
      (b : BackendResp) (res : MgrState × String),
      WF st → createFunc hash cfg st k m b = some res → WF res.1) ∧
    (∀ st : MgrState, WF st → WF (loadFunc st)) ∧
    (∀ (st : MgrState) (k : String) (v : List String), WF st →
      lookupA st.endpoints k = some v → v.length = 2 ∧ 0 < v.length) := by
  refine ⟨?_, ?_, ?_, ?_, ?_⟩
  · intro p hp
    cases hp
  · intro st k h
    rw [getEndpointFromDb]
    cases hl : lookupA st.store k with
    | some row => exact WF_insert h k rfl
    | none => exact h
  · intro hash cfg st k m b res h hc
    rcases hsplit : createResult cfg b with ⟨ep, err⟩
    rw [createFunc, hsplit] at hc
    cases err with
    | some e =>
      simp at hc
      rw [← hc]
      exact h
    | none =>
      by_cases hep : ep = ""
      · simp [hep] at hc
      · simp [hep] at hc
        rw [← hc]
        exact WF_insert h k rfl
  · intro st h
    exact loadFuncRows_WF st.store st h
  · intro st k v h hl
    have hm := h (k, v) (lookupA_mem hl)
    exact ⟨hm, by rw [hm]; decide⟩

/-- A well-formed two-binding state used to witness C10. -/
def stC10 : MgrState :=
  { endpoints := [("a", ["e", "m"])], store := [("a", ⟨"m", "sd_a", "e"⟩)],
    lastInvokeEndpoint := "e" }

/-- C10 (witness): the invariant theorem applied at concrete states — a
store-hit cache fill, a reload, a successful provisioning write, and the
in-bounds conclusion for a present entry. -/
theorem C10_witness :
    WF (getEndpointFromDb stC10 "a").1 ∧
    WF (loadFunc stC10) ∧
    WF (⟨[("a", ["e", "m"]), ("b", ["u", "m2"])],
         [("a", ⟨"m", "sd_a", "e"⟩), ("b", ⟨"m2", "sd_b", "u"⟩)], "e"⟩ : MgrState) ∧
    (["e", "m"] : List String).length = 2 ∧ 0 < (["e", "m"] : List String).length :=
  ⟨C10_theorem.2.1 stC10 "a" (by unfold WF stC10; decide),
   C10_theorem.2.2.2.1 stC10 (by unfold WF stC10; decide),
   C10_theorem.2.2.1 hashId cfgFc2 stC10 "b" "m2" ⟨true, none, Except.ok "u"⟩
     (⟨[("a", ["e", "m"]), ("b", ["u", "m2"])],
       [("a", ⟨"m", "sd_a", "e"⟩), ("b", ⟨"m2", "sd_b", "u"⟩)], "e"⟩, "u")
     (by unfold WF stC10; decide) rfl,
   C10_theorem.2.2.2.2 stC10 "a" ["e", "m"] (by unfold WF stC10; decide) rfl⟩

end SdApi
